import Mathlib

/-
Shallow embedding of the ceya language pipeline (scanner, parser, AST,
environment arena, tree-walking evaluator, assembly code generator) from
src/scanner.rs, src/parser.rs, src/ast.rs, src/environment.rs, src/main.rs.

Numbers: the source uses f64. We idealize double-precision arithmetic as
exact rational arithmetic (Rat); every concrete value exercised by the
claims (small integers) is exactly representable in f64, where the two
agree. Rust's mutable-reference state (the environment arena, scanner and
parser cursors) is modelled by explicit state passing. Rust panics
(.expect / .unwrap on Err) are modelled by explicit halt results that
propagate to the top, mirroring process abortion.
-/

namespace Ceya

/-- Runtime value (src/ast.rs `Value`): tagged union of string, number
(f64, idealized as Rat), boolean and null. -/
inductive Value where
  | String  (s : String)
  | Number  (n : Rat)
  | Boolean (b : Bool)
  | Null
deriving DecidableEq

/-- Rendering of an integer as Rust's `{}` format for f64 prints it
(integral doubles print with no fractional part). -/
def intRepr (i : Int) : String :=
  if i < 0 then "-" ++ Nat.repr i.natAbs else Nat.repr i.natAbs

/-- Rust `{}` display of an f64, on the rational idealization: integral
values print as plain integers (the only case the repository's claims
exercise); non-integral values are rendered as num/den, standing in for
Rust's shortest-decimal form. -/
def numToString (q : Rat) : String :=
  if q.den = 1 then intRepr q.num
  else intRepr q.num ++ "/" ++ Nat.repr q.den

/-- Display for Value (src/ast.rs `impl Display for Value`): strings
verbatim, numbers by numeric formatting, booleans as true/false, null as
"null". -/
def valueToString : Value → String
  | .String s  => s
  | .Number n  => numToString n
  | .Boolean b => if b then "true" else "false"
  | .Null      => "null"

/-- Token kind (src/scanner.rs `TokenType`). The source's scanner.rs enum
lists the variants up to EOF; `Soro`, `Faran` and `Ke` are kinds the
parser (src/parser.rs) and AST additionally match on, so the enum the
crate compiles against includes them; the scanner never produces them. -/
inductive TokenType where
  | LeftParen | RightParen | LeftBrace | RightBrace | Comma | Dot
  | Minus | Plus | Semicolon | Slash | Star
  | Bang | BangEqual | Equal | EqualEqual
  | Greater | GreaterEqual | Less | LessEqual
  | Identifier
  | String (s : String)
  | Number (n : Rat)
  | And | Else | False | Fn | For | If | Null | Or | Print | Return
  | True | Let | While
  | Soro | Faran | Ke
  | EOF
deriving DecidableEq

/-- Token (src/scanner.rs `Token`): lexeme text, source line, kind. -/
structure Token where
  lexeme : String
  line   : Nat
  typ    : TokenType
deriving DecidableEq

/-- Error formatting (src/main.rs `error`): "[line n] Error: message". -/
def errorMsg (line : Nat) (message : String) : String :=
  "[line " ++ Nat.repr line ++ "] Error: " ++ message

/-! ## Environment arena (src/environment.rs) -/

/-- Assoc-list lookup, modelling `HashMap::get` on the scope's bindings. -/
def lookupVals : List (String × Value) → String → Option Value
  | [], _ => none
  | (k, v) :: rest, name => if k = name then some v else lookupVals rest name

/-- Assoc-list insert-or-replace, modelling `HashMap::insert`. -/
def insertVal : List (String × Value) → String → Value → List (String × Value)
  | [], name, v => [(name, v)]
  | (k, w) :: rest, name, v =>
      if k = name then (name, v) :: rest else (k, w) :: insertVal rest name v

/-- One lexical scope (src/environment.rs `Environment`): its arena index,
optional parent index, and name-to-value bindings (HashMap modelled as an
assoc list). -/
structure Environment where
  index  : Nat
  parent : Option Nat
  values : List (String × Value)
deriving DecidableEq

/-- The append-only scope store (src/environment.rs `EnvironmentArena`). -/
structure EnvironmentArena where
  envs : List Environment
deriving DecidableEq

/-- EnvironmentArena::new. -/
def EnvironmentArena.new : EnvironmentArena := ⟨[]⟩

/-- EnvironmentArena::add: append a scope with the given parent, return its
index. -/
def EnvironmentArena.add (A : EnvironmentArena) (parent : Option Nat) :
    Nat × EnvironmentArena :=
  let next := A.envs.length
  (next, ⟨A.envs ++ [{ index := next, parent := parent, values := [] }]⟩)

/-- EnvironmentArena::define: insert/overwrite a binding directly in the
given scope. -/
def EnvironmentArena.define (A : EnvironmentArena) (env : Nat) (name : String)
    (value : Value) : EnvironmentArena :=
  match A.envs[env]? with
  | none => A
  | some e => ⟨A.envs.set env { e with values := insertVal e.values name value }⟩

/-- EnvironmentArena::get: search the scope, then its parent chain; fail
with an undefined-variable error through the root. The Rust recursion on
parent indices is bounded here by explicit fuel (the arena's add keeps
every parent index below its child, so any fuel above the scope index is
enough; exhaustion yields a distinguished error never reached on arenas
built by add). A missing scope index models the source's expect("env")
panic. -/
def EnvironmentArena.get (A : EnvironmentArena) :
    Nat → Nat → Token → Except String Value
  | 0, _, _ => .error "recursion limit"
  | fuel + 1, env, name =>
    match A.envs[env]? with
    | none => .error "env"
    | some e =>
      match lookupVals e.values name.lexeme with
      | some v => .ok v
      | none =>
        match e.parent with
        | some p => A.get fuel p name
        | none => .error ("Undefined variable '" ++ name.lexeme ++ "'")

/-- EnvironmentArena::assign: like get, but overwrite the binding where it
is found; never create a binding; return the (possibly updated) arena. -/
def EnvironmentArena.assign (A : EnvironmentArena) :
    Nat → Nat → Token → Value → Except String Unit × EnvironmentArena
  | 0, _, _, _ => (.error "recursion limit", A)
  | fuel + 1, env, name, value =>
    match A.envs[env]? with
    | none => (.error "env", A)
    | some e =>
      if (lookupVals e.values name.lexeme).isSome then
        (.ok (), ⟨A.envs.set env { e with values := insertVal e.values name.lexeme value }⟩)
      else
        match e.parent with
        | some p => A.assign fuel p name value
        | none => (.error ("Undefined variable '" ++ name.lexeme ++ "'"), A)

/-! ## AST (src/ast.rs) -/

/-- Expression (src/ast.rs `Expr`): the live variants of the enum. Assign,
Logical, Variable and Call are commented out in the source and do not
exist in the compiled crate. -/
inductive Expr where
  | Binary   (left : Expr) (operator : Token) (right : Expr)
  | Grouping (expression : Expr)
  | Literal  (value : Value)
  | Unary    (operator : Token) (right : Expr)
  | Soro
deriving DecidableEq

/-- Statement (src/ast.rs `Stmt`): the live variants. Let, Fun and Return
are commented out in the source. -/
inductive Stmt where
  | Block      (statements : List Stmt)
  | Expression (expression : Expr)
  | Print      (expression : Expr)
  | Faran
  | Ke
  | If         (condition : Expr) (thn : Stmt) (els : Option Stmt)
  | While      (condition : Expr) (body : Stmt)

/-- Expr::evaluate (src/ast.rs lines 75-225): evaluate an expression
against the arena and a scope index, threading the `&mut EnvironmentArena`
explicitly. Operator behaviour is transcribed case by case from the
source's match on the operator token type. -/
def Expr.evaluate : Expr → EnvironmentArena → Nat → Value × EnvironmentArena
  | .Binary left operator right, arena, env =>
    let (l, a1) := left.evaluate arena env
    let (r, a2) := right.evaluate a1 env
    let v : Value :=
      match operator.typ with
      | .Minus =>
        match l, r with
        | .Number a, .Number b => .Number (a - b)
        | _, _ => .Null
      | .Slash =>
        match l, r with
        | .Number a, .Number b => .Number (a / b)
        | _, _ => .Null
      | .Star =>
        match l, r with
        | .Number a, .Number b => .Number (a * b)
        | _, _ => .Null
      | .Plus =>
        match l, r with
        | .Number a, .Number b => .Number (a + b)
        | .String a, .String b => .String (a ++ b)
        | .String a, .Number b => .String (a ++ numToString b)
        | .Number a, .String b => .String (numToString a ++ b)
        | _, _ => .Null
      | .Greater =>
        match l, r with
        | .Number a, .Number b => .Boolean (decide (a > b))
        | _, _ => .Boolean false
      | .GreaterEqual =>
        match l, r with
        | .Number a, .Number b => .Boolean (decide (a ≥ b))
        | _, _ => .Boolean false
      | .Less =>
        match l, r with
        | .Number a, .Number b => .Boolean (decide (a < b))
        | _, _ => .Boolean false
      | .LessEqual =>
        match l, r with
        | .Number a, .Number b => .Boolean (decide (a ≤ b))
        | _, _ => .Boolean false
      | .BangEqual =>
        match l, r with
        | .Number a, .Number b => .Boolean (decide (a ≠ b))
        | .String a, .String b => .Boolean (decide (a ≠ b))
        | .Boolean a, .Boolean b => .Boolean (decide (a ≠ b))
        | .Null, .Null => .Boolean (!true)
        | _, _ => .Boolean (!false)
      | .EqualEqual =>
        match l, r with
        | .Number a, .Number b => .Boolean (decide (a = b))
        | .String a, .String b => .Boolean (decide (a = b))
        | .Boolean a, .Boolean b => .Boolean (decide (a = b))
        | .Null, .Null => .Boolean true
        | _, _ => .Boolean false
      | _ => .Null
    (v, a2)
  | .Grouping expression, arena, env => expression.evaluate arena env
  | .Literal value, arena, _ => (value, arena)
  | .Unary operator right, arena, env =>
    let (r, a1) := right.evaluate arena env
    let v : Value :=
      match operator.typ with
      | .Minus =>
        match r with
        | .Number n => .Number (-n)
        | _ => .Null
      | .Bang =>
        .Boolean (!(match r with
          | .Null => false
          | .Boolean b => b
          | _ => true))
      | _ => .Null
    (v, a1)
  | .Soro, arena, _ => (.Null, arena)

/-- Expr::is_true (src/ast.rs lines 416-424): the truthiness test used by
the if and while statements. -/
def Expr.is_true (e : Expr) (arena : EnvironmentArena) (env : Nat) :
    Bool × EnvironmentArena :=
  match e.evaluate arena env with
  | (.Boolean b, a1) => (b, a1)
  | (.Null, a1) => (false, a1)
  | (.String s, a1) => (!s.isEmpty, a1)
  | (.Number n, a1) => (decide (n ≠ 0), a1)

/-- Expr::parenthesize (src/ast.rs lines 402-414): the Lisp-style prefix
form "(name part1 part2 ...)"; parts arrive already formatted. -/
def Expr.parenthesize (name : String) (parts : List String) : String :=
  "(" ++ name ++ String.join (parts.map (fun p => " " ++ p)) ++ ")"

/-- Expr::fmt_output (src/ast.rs lines 366-400): parenthesized printing of
an expression. -/
def Expr.fmt_output : Expr → String
  | .Binary left operator right =>
      Expr.parenthesize operator.lexeme [left.fmt_output, right.fmt_output]
  | .Grouping expression => Expr.parenthesize "group" [expression.fmt_output]
  | .Literal value => valueToString value
  | .Unary operator right => Expr.parenthesize operator.lexeme [right.fmt_output]
  | .Soro => "soro"

mutual

/-- Stmt::execute (src/ast.rs lines 441-492): run a statement against the
arena and a scope index. The Option Value is the completion (return)
value; the final List String collects the lines written by print
statements, in order. Note the source's While case: the Rust `return`
inside the loop hands back the body's result after the first iteration,
so the body runs at most once. -/
def Stmt.execute : Stmt → EnvironmentArena → Nat →
    Option Value × EnvironmentArena × List String
  | .Block statements, arena, env =>
    let (newEnv, a1) := arena.add (some env)
    Stmt.execList statements a1 newEnv
  | .Expression expression, arena, env =>
    let (_, a1) := expression.evaluate arena env
    (none, a1, [])
  | .Print expression, arena, env =>
    let (v, a1) := expression.evaluate arena env
    (none, a1, [valueToString v])
  | .If condition thn els, arena, env =>
    let (b, a1) := condition.is_true arena env
    if b then thn.execute a1 env
    else
      match els with
      | some s => s.execute a1 env
      | none => (none, a1, [])
  | .While condition body, arena, env =>
    let (b, a1) := condition.is_true arena env
    if b then body.execute a1 env else (none, a1, [])
  | .Faran, arena, _ => (none, arena, [])
  | .Ke, arena, _ => (none, arena, [])

/-- Sequential execution of a block's statements, short-circuiting on the
first completion value (the for-loop inside Stmt::execute's Block case). -/
def Stmt.execList : List Stmt → EnvironmentArena → Nat →
    Option Value × EnvironmentArena × List String
  | [], arena, _ => (none, arena, [])
  | s :: rest, arena, env =>
    match s.execute arena env with
    | (some v, a1, out) => (some v, a1, out)
    | (none, a1, out) =>
      let (r, a2, out2) := Stmt.execList rest a1 env
      (r, a2, out ++ out2)

end

/-- Assembly snippet emitted for a binary operator (src/ast.rs lines
273-350): pop both operands, combine, push the result; comparison
operators go through cmp and a setcc. -/
def binCompileSnippet : TokenType → String
  | .Plus => "   pop rbx\n   pop rax\n   add eax, ebx\n   push rax\n"
  | .Star => "   pop rbx\n   pop rax\n   imul ebx\n   push rax\n"
  | .Minus => "   pop rbx\n   pop rax\n   sub eax, ebx\n   push rax\n"
  | .Slash => "   pop rbx\n   pop rax\n   cqo\n   idiv rbx\n   push rax\n"
  | .Less => "   pop rbx\n   pop rax\n   cmp rax, rbx\n   setl al\n   movzx rax, al\n   push rax\n"
  | .LessEqual => "   pop rbx\n   pop rax\n   cmp rax, rbx\n   setle al\n   movzx rax, al\n   push rax\n"
  | .Greater => "   pop rbx\n   pop rax\n   cmp rax, rbx\n   setg al\n   movzx rax, al\n   push rax\n"
  | .GreaterEqual => "   pop rbx\n   pop rax\n   cmp rax, rbx\n   setge al\n   movzx rax, al\n   push rax\n"
  | .EqualEqual => "   pop rbx\n   pop rax\n   cmp rax, rbx\n   sete al\n   movzx rax, al\n   push rax\n"
  | .BangEqual => "   pop rbx\n   pop rax\n   cmp rax, rbx\n   setne al\n   movzx rax, al\n   push rax\n"
  | _ => "    ; not implemented yet!\n"

/-- Expr::compile (src/ast.rs lines 227-364): straight-line stack-machine
assembly for an expression; every realized expression leaves one value on
the stack. -/
def Expr.compile : Expr → String
  | .Literal value =>
    "   ; " ++ (Expr.Literal value).fmt_output ++ "\n" ++
    (match value with
     | .Null => "   ; not implemented yet!\n"
     | .Number n => "   push " ++ numToString n ++ "\n"
     | .Boolean b => "   push " ++ (if b then "1" else "0") ++ "\n"
     | .String _ => "   ; not implemented yet!\n\n")
  | .Unary operator right =>
    "   ; " ++ (Expr.Unary operator right).fmt_output ++ "\n" ++
    (match operator.typ with
     | .Minus => right.compile ++ "   pop rax\n   neg rax\n   push rax\n"
     | .Bang => "not implemented yet!\n"
     | _ => "error\n")
  | .Binary left operator right =>
    left.compile ++ right.compile ++
    "   ; " ++ (Expr.Binary left operator right).fmt_output ++ "\n" ++
    binCompileSnippet operator.typ
  | .Grouping expression =>
    "   ; " ++ (Expr.Grouping expression).fmt_output ++ "\n" ++ expression.compile
  | .Soro => "   ; " ++ Expr.Soro.fmt_output ++ "\n"

mutual

/-- Stmt::compile (src/ast.rs lines 494-582). The source draws a fresh
random label (rand::thread_rng, range 100..1000) for each if/while; the
successive draws are modelled by the supplied list, consumed front to
back, so the compiled text is a function of the draw sequence exactly as
in the source. -/
def Stmt.compile : Stmt → List Nat → String × List Nat
  | .Expression expression, draws => (expression.compile, draws)
  | .Print expression, draws =>
    ("   ; print " ++ expression.fmt_output ++ "\n" ++ expression.compile ++
     "   lea rcx, [msg]\n   pop rdx\n   call printf\n", draws)
  | .Block statements, draws => Stmt.compileList statements draws
  | .If condition thn els, draws =>
    let label := draws.headD 0
    let rest := draws.tail
    let head := "   ; if " ++ condition.fmt_output ++ "\n" ++ condition.compile ++
      "   pop rax\n   cmp rax, 1\n"
    match els with
    | some e =>
      let (thenCode, d1) := thn.compile rest
      let (elseCode, d2) := e.compile d1
      (head ++ "   jne .ne_" ++ Nat.repr label ++ "\n" ++ thenCode ++
       "   jmp .end_" ++ Nat.repr label ++ "\n" ++ ".ne_" ++ Nat.repr label ++ ":\n" ++
       elseCode ++ ".end_" ++ Nat.repr label ++ ":\n", d2)
    | none =>
      let (thenCode, d1) := thn.compile rest
      (head ++ "   jne .end_" ++ Nat.repr label ++ "\n" ++ thenCode ++
       ".end_" ++ Nat.repr label ++ ":\n", d1)
  | .While condition body, draws =>
    let label := draws.headD 0
    let rest := draws.tail
    let (bodyCode, d1) := body.compile rest
    ("   ; while " ++ condition.fmt_output ++ "\n" ++
     "   jmp .cond_" ++ Nat.repr label ++ "\n" ++
     ".body_" ++ Nat.repr label ++ ":\n" ++ bodyCode ++
     ".cond_" ++ Nat.repr label ++ ":\n" ++ condition.compile ++
     "   pop rax\n   cmp rax, 1\n   je .body_" ++ Nat.repr label ++ "\n", d1)
  | .Faran, draws => ("   ; faran\n   pop rax\n", draws)
  | .Ke, draws => ("   ; ke\n   pop rax\n   push rax\n   push rax\n", draws)

/-- Compilation of a block's statements in order, threading the label
draws. -/
def Stmt.compileList : List Stmt → List Nat → String × List Nat
  | [], draws => ("", draws)
  | s :: rest, draws =>
    let (code, d1) := s.compile draws
    let (codeRest, d2) := Stmt.compileList rest d1
    (code ++ codeRest, d2)

end

/-! ## Scanner (src/scanner.rs) -/

/-- Scanner::is_digit. -/
def isDigitChar (c : Char) : Bool := '0' ≤ c && c ≤ '9'

/-- Scanner::is_alpha. -/
def isAlphaChar (c : Char) : Bool :=
  ('a' ≤ c && c ≤ 'z') || ('A' ≤ c && c ≤ 'Z') || c = '_'

/-- Scanner::is_alpha_numeric. -/
def isAlphaNumChar (c : Char) : Bool := isDigitChar c || isAlphaChar c

/-- The keyword table inside Scanner::identifier. -/
def keywordType (txt : String) : TokenType :=
  match txt with
  | "and" => .And
  | "else" => .Else
  | "false" => .False
  | "for" => .For
  | "fn" => .Fn
  | "if" => .If
  | "null" => .Null
  | "or" => .Or
  | "print" => .Print
  | "return" => .Return
  | "true" => .True
  | "let" => .Let
  | "while" => .While
  | _ => .Identifier

/-- The NUL sentinel Scanner::peek returns at end of input. -/
def nullChar : Char := Char.ofNat 0

/-- Read the character at an index; out of range yields the NUL sentinel,
as Scanner::peek does at end of input. -/
def peekAt (src : List Char) (i : Nat) : Char := src.getD i nullChar

/-- The source slice `source[start..stop]` as a string. -/
def sliceStr (src : List Char) (start stop : Nat) : String :=
  String.mk ((src.drop start).take (stop - start))

/-- Token::new over a source slice, as Scanner::add_token builds it. -/
def mkToken (src : List Char) (start stop line : Nat) (typ : TokenType) : Token :=
  { lexeme := sliceStr src start stop, line := line, typ := typ }

/-- The `//`-comment loop in Scanner::scan_token: advance until newline or
end of input; returns the cursor. Fuel bounds the Rust while loop, which
consumes one character per step (any fuel above the remaining length is
enough). -/
def commentLoop (src : List Char) : Nat → Nat → Nat
  | 0, current => current
  | fuel + 1, current =>
    if current < src.length then
      if peekAt src current = '\n' then current
      else commentLoop src fuel (current + 1)
    else current

/-- The body loop of Scanner::string: advance to the closing quote or end
of input, counting newlines; returns cursor and line. -/
def stringLoop (src : List Char) : Nat → Nat → Nat → Nat × Nat
  | 0, current, line => (current, line)
  | fuel + 1, current, line =>
    if current < src.length then
      if peekAt src current = '"' then (current, line)
      else
        stringLoop src fuel (current + 1)
          (if peekAt src current = '\n' then line + 1 else line)
    else (current, line)

/-- The digit-consuming loop of Scanner::number. -/
def digitsLoop (src : List Char) : Nat → Nat → Nat
  | 0, current => current
  | fuel + 1, current =>
    if current < src.length then
      if isDigitChar (peekAt src current) then digitsLoop src fuel (current + 1)
      else current
    else current

/-- The identifier-consuming loop of Scanner::identifier. -/
def identLoop (src : List Char) : Nat → Nat → Nat
  | 0, current => current
  | fuel + 1, current =>
    if current < src.length then
      if isAlphaNumChar (peekAt src current) then identLoop src fuel (current + 1)
      else current
    else current

/-- Parse the consumed number lexeme (digits, optionally a point and more
digits) to its value, modelling f64::from_str on such input exactly (all
such values up to f64 precision; the claims only use small integers). -/
def ratOfChars (cs : List Char) : Rat :=
  let intPart := cs.takeWhile (fun c => c ≠ '.')
  let rest := cs.dropWhile (fun c => c ≠ '.')
  let intVal : Nat := intPart.foldl (fun a c => a * 10 + (c.toNat - 48)) 0
  match rest with
  | [] => (intVal : Rat)
  | _ :: frac =>
    let fracVal : Nat := frac.foldl (fun a c => a * 10 + (c.toNat - 48)) 0
    (intVal : Rat) + (fracVal : Rat) / ((10 : Rat) ^ frac.length)

/-- Scanner::number, entered after its first digit was consumed at
`start`: consume the remaining digits and an optional fraction, and build
the Number token. -/
def scanNumber (src : List Char) (start line : Nat) : Nat × Token :=
  let c1 := digitsLoop src (src.length + 1) (start + 1)
  let c2 :=
    if peekAt src c1 = '.' then
      if isDigitChar (peekAt src (c1 + 1)) then digitsLoop src (src.length + 1) (c1 + 1)
      else c1
    else c1
  (c2, mkToken src start c2 line (.Number (ratOfChars ((src.drop start).take (c2 - start)))))

/-- Scanner::identifier, entered after its first character was consumed at
`start`: consume the rest and classify through the keyword table. -/
def scanIdent (src : List Char) (start line : Nat) : Nat × Token :=
  let c1 := identLoop src (src.length + 1) (start + 1)
  (c1, mkToken src start c1 line (keywordType (sliceStr src start c1)))

/-- Scanner::scan_token (src/scanner.rs lines 95-151), entered with the
cursor at `start` (in bounds): returns the new cursor, the new line
counter, the token produced (if any) and the error reported (if any).
The unterminated-string branch of Scanner::string constructs an error
value and discards it (`error(self.line, ...); return;`), so that branch
reports nothing here. -/
def scanStep (src : List Char) (start line : Nat) :
    Nat × Nat × Option Token × Option String :=
  let c := peekAt src start
  let cur := start + 1
  if c = '(' then (cur, line, some (mkToken src start cur line .LeftParen), none)
  else if c = ')' then (cur, line, some (mkToken src start cur line .RightParen), none)
  else if c = '{' then (cur, line, some (mkToken src start cur line .LeftBrace), none)
  else if c = '}' then (cur, line, some (mkToken src start cur line .RightBrace), none)
  else if c = ',' then (cur, line, some (mkToken src start cur line .Comma), none)
  else if c = '.' then (cur, line, some (mkToken src start cur line .Dot), none)
  else if c = '-' then (cur, line, some (mkToken src start cur line .Minus), none)
  else if c = '+' then (cur, line, some (mkToken src start cur line .Plus), none)
  else if c = ';' then (cur, line, some (mkToken src start cur line .Semicolon), none)
  else if c = '*' then (cur, line, some (mkToken src start cur line .Star), none)
  else if c = '!' then
    if cur < src.length ∧ peekAt src cur = '=' then
      (cur + 1, line, some (mkToken src start (cur + 1) line .BangEqual), none)
    else (cur, line, some (mkToken src start cur line .Bang), none)
  else if c = '=' then
    if cur < src.length ∧ peekAt src cur = '=' then
      (cur + 1, line, some (mkToken src start (cur + 1) line .EqualEqual), none)
    else (cur, line, some (mkToken src start cur line .Equal), none)
  else if c = '<' then
    if cur < src.length ∧ peekAt src cur = '=' then
      (cur + 1, line, some (mkToken src start (cur + 1) line .LessEqual), none)
    else (cur, line, some (mkToken src start cur line .Less), none)
  else if c = '>' then
    if cur < src.length ∧ peekAt src cur = '=' then
      (cur + 1, line, some (mkToken src start (cur + 1) line .GreaterEqual), none)
    else (cur, line, some (mkToken src start cur line .Greater), none)
  else if c = '/' then
    if cur < src.length ∧ peekAt src cur = '/' then
      (commentLoop src (src.length + 1) (cur + 1), line, none, none)
    else (cur, line, some (mkToken src start cur line .Slash), none)
  else if c = '"' then
    let (c1, l1) := stringLoop src (src.length + 1) cur line
    if src.length ≤ c1 then
      (c1, l1, none, none)
    else
      (c1 + 1, l1,
       some (mkToken src start (c1 + 1) l1 (.String (sliceStr src (start + 1) c1))), none)
  else if c = ' ' ∨ c = '\r' ∨ c = '\t' then (cur, line, none, none)
  else if c = '\n' then (cur, line + 1, none, none)
  else if isDigitChar c then
    let (c2, t) := scanNumber src start line
    (c2, line, some t, none)
  else if isAlphaChar c then
    let (c2, t) := scanIdent src start line
    (c2, line, some t, none)
  else
    (cur, line, none,
     some (errorMsg line ("Unexpected token '" ++ String.singleton c ++ "'.")))

/-- The main loop of Scanner::scan_tokens: repeat scan_token until end of
input, then append the terminal EOF token. Errors returned by scan_token
are the ones the loop prints. Fuel bounds the loop (every step consumes
at least one character). -/
def scanLoop (src : List Char) :
    Nat → Nat → Nat → List Token → List String → List Token × List String
  | 0, _, _, toks, errs => (toks, errs)
  | fuel + 1, current, line, toks, errs =>
    if current < src.length then
      let (c1, l1, t?, e?) := scanStep src current line
      scanLoop src fuel c1 l1 (toks ++ t?.toList) (errs ++ e?.toList)
    else
      (toks ++ [{ lexeme := "", line := line, typ := .EOF }], errs)

/-- Scanner::scan_tokens over a source given as characters, starting as
main.rs initializes the scanner (start 0, current 0, line 0). -/
def scanTokens (src : List Char) : List Token × List String :=
  scanLoop src (src.length + 1) 0 0 [] []

/-- Scanning a source string (main.rs reads the file into a String; the
spec restricts input to single-byte/ASCII-safe text, where Rust's byte
indexing and character indexing agree). -/
def scanSource (s : String) : List Token × List String :=
  scanTokens s.data

/-! ## Parser (src/parser.rs) -/

/-- Outcome of a parser method: success or a recoverable `Err` (each
carrying the cursor), or a process-aborting panic (the source's
`.expect(...)` on an Err), which propagates to the top. -/
inductive PResult (α : Type) where
  | ok   : α → Nat → PResult α
  | err  : String → Nat → PResult α
  | halt : String → PResult α
deriving DecidableEq

/-- Fallback for a token read out of range; Parser::peek would panic
there, which no EOF-terminated token list reaches. -/
def eofFallback : Token := { lexeme := "", line := 0, typ := .EOF }

/-- Parser::peek. -/
def peekT (toks : List Token) (cur : Nat) : Token := toks.getD cur eofFallback

/-- Parser::previous. -/
def prevT (toks : List Token) (cur : Nat) : Token := toks.getD (cur - 1) eofFallback

/-- Parser::is_at_end: the current token is EOF. -/
def isAtEndT (toks : List Token) (cur : Nat) : Bool :=
  decide ((peekT toks cur).typ = TokenType.EOF)

/-- Parser::advance: move past the current token unless at end. -/
def advanceT (toks : List Token) (cur : Nat) : Nat :=
  if isAtEndT toks cur then cur else cur + 1

/-- Parser::check: the current token has the given type (false at end). -/
def checkT (toks : List Token) (cur : Nat) (typ : TokenType) : Bool :=
  if isAtEndT toks cur then false else decide ((peekT toks cur).typ = typ)

/-- Parser::consume: advance over a token of the expected type, else a
recoverable error at the current token's line. -/
def consumeT (toks : List Token) (cur : Nat) (typ : TokenType) (message : String) :
    PResult Token :=
  if checkT toks cur typ then .ok (peekT toks cur) (advanceT toks cur)
  else .err (errorMsg (peekT toks cur).line message) cur

/-- Rust's `.expect(message)` on a parser Result: a recoverable error
becomes a panic carrying the message. -/
def expectP {α : Type} (r : PResult α) (message : String) : PResult α :=
  match r with
  | .err _ _ => .halt message
  | r => r

/-- Keywords at which Parser::synchronise stops discarding. -/
def isSyncStart : TokenType → Bool
  | .Fn | .Let | .For | .If | .While | .Print | .Return => true
  | _ => false

/-- The loop of Parser::synchronise, entered after its initial advance. -/
def pSyncLoop (toks : List Token) : Nat → Nat → Nat
  | 0, cur => cur
  | fuel + 1, cur =>
    if isAtEndT toks cur then cur
    else if (prevT toks cur).typ = .Semicolon then cur
    else if isSyncStart (peekT toks cur).typ then cur
    else pSyncLoop toks fuel (advanceT toks cur)

/-- Parser::synchronise: discard tokens until just past a semicolon or in
front of a statement keyword. -/
def pSynchronise (toks : List Token) (cur fuel : Nat) : Nat :=
  pSyncLoop toks fuel (advanceT toks cur)

mutual

/-- Parser::expression (src/parser.rs lines 255-257): the top of the
precedence ladder the source actually compiles, which is equality
(assignment and the logical levels are commented out). All parser methods
carry fuel bounding the recursion depth plus loop steps; the wrapper
passes more than any token list can consume, so the exhaustion branch is
never reached. -/
def pExpression (toks : List Token) (cur : Nat) : Nat → PResult Expr
  | 0 => .halt "out of fuel"
  | fuel + 1 => pEquality toks cur fuel

termination_by structural fuel => fuel

/-- Parser::equality: comparison, then a left-associative loop over
`!=`/`==`. -/
def pEquality (toks : List Token) (cur : Nat) : Nat → PResult Expr
  | 0 => .halt "out of fuel"
  | fuel + 1 =>
    match pComparison toks cur fuel with
    | .ok e c => pEqualityLoop toks e c fuel
    | .err m c => .err m c
    | .halt m => .halt m

termination_by structural fuel => fuel

/-- The while loop inside Parser::equality. -/
def pEqualityLoop (toks : List Token) (e : Expr) (cur : Nat) : Nat → PResult Expr
  | 0 => .halt "out of fuel"
  | fuel + 1 =>
    if (peekT toks cur).typ = .BangEqual ∨ (peekT toks cur).typ = .EqualEqual then
      let c1 := advanceT toks cur
      let operator := prevT toks c1
      match pComparison toks c1 fuel with
      | .ok r c2 => pEqualityLoop toks (.Binary e operator r) c2 fuel
      | .err m c => .err m c
      | .halt m => .halt m
    else .ok e cur

termination_by structural fuel => fuel

/-- Parser::comparison: term, then a left-associative loop over
`>`/`>=`/`<`/`<=`. -/
def pComparison (toks : List Token) (cur : Nat) : Nat → PResult Expr
  | 0 => .halt "out of fuel"
  | fuel + 1 =>
    match pTerm toks cur fuel with
    | .ok e c => pComparisonLoop toks e c fuel
    | .err m c => .err m c
    | .halt m => .halt m

termination_by structural fuel => fuel

/-- The while loop inside Parser::comparison. -/
def pComparisonLoop (toks : List Token) (e : Expr) (cur : Nat) : Nat → PResult Expr
  | 0 => .halt "out of fuel"
  | fuel + 1 =>
    if (peekT toks cur).typ = .Greater ∨ (peekT toks cur).typ = .GreaterEqual ∨
        (peekT toks cur).typ = .Less ∨ (peekT toks cur).typ = .LessEqual then
      let c1 := advanceT toks cur
      let operator := prevT toks c1
      match pTerm toks c1 fuel with
      | .ok r c2 => pComparisonLoop toks (.Binary e operator r) c2 fuel
      | .err m c => .err m c
      | .halt m => .halt m
    else .ok e cur

termination_by structural fuel => fuel

/-- Parser::term: factor, then a left-associative loop over `-`/`+`. -/
def pTerm (toks : List Token) (cur : Nat) : Nat → PResult Expr
  | 0 => .halt "out of fuel"
  | fuel + 1 =>
    match pFactor toks cur fuel with
    | .ok e c => pTermLoop toks e c fuel
    | .err m c => .err m c
    | .halt m => .halt m

termination_by structural fuel => fuel

/-- The while loop inside Parser::term. -/
def pTermLoop (toks : List Token) (e : Expr) (cur : Nat) : Nat → PResult Expr
  | 0 => .halt "out of fuel"
  | fuel + 1 =>
    if (peekT toks cur).typ = .Minus ∨ (peekT toks cur).typ = .Plus then
      let c1 := advanceT toks cur
      let operator := prevT toks c1
      match pFactor toks c1 fuel with
      | .ok r c2 => pTermLoop toks (.Binary e operator r) c2 fuel
      | .err m c => .err m c
      | .halt m => .halt m
    else .ok e cur

termination_by structural fuel => fuel

/-- Parser::factor: unary, then a left-associative loop over `*`/`/`. -/
def pFactor (toks : List Token) (cur : Nat) : Nat → PResult Expr
  | 0 => .halt "out of fuel"
  | fuel + 1 =>
    match pUnary toks cur fuel with
    | .ok e c => pFactorLoop toks e c fuel
    | .err m c => .err m c
    | .halt m => .halt m

termination_by structural fuel => fuel

/-- The while loop inside Parser::factor. -/
def pFactorLoop (toks : List Token) (e : Expr) (cur : Nat) : Nat → PResult Expr
  | 0 => .halt "out of fuel"
  | fuel + 1 =>
    if (peekT toks cur).typ = .Star ∨ (peekT toks cur).typ = .Slash then
      let c1 := advanceT toks cur
      let operator := prevT toks c1
      match pUnary toks c1 fuel with
      | .ok r c2 => pFactorLoop toks (.Binary e operator r) c2 fuel
      | .err m c => .err m c
      | .halt m => .halt m
    else .ok e cur

termination_by structural fuel => fuel

/-- Parser::unary: `!`/`-` followed by unary (right-associative), else
primary (the call level is commented out in the source). -/
def pUnary (toks : List Token) (cur : Nat) : Nat → PResult Expr
  | 0 => .halt "out of fuel"
  | fuel + 1 =>
    if (peekT toks cur).typ = .Bang ∨ (peekT toks cur).typ = .Minus then
      let c1 := advanceT toks cur
      let operator := prevT toks c1
      match pUnary toks c1 fuel with
      | .ok r c2 => .ok (.Unary operator r) c2
      | .err m c => .err m c
      | .halt m => .halt m
    else pPrimary toks cur fuel

termination_by structural fuel => fuel

/-- Parser::primary (src/parser.rs lines 477-507): literals, soro and
parenthesized groups; the identifier case is commented out. A failed `)`
consume inside a group is replaced by "Expect expression." at the current
token, as the source's Err(()) fallthrough does; the group branch also
reproduces the source's `current -= 1` before the shared final advance. -/
def pPrimary (toks : List Token) (cur : Nat) : Nat → PResult Expr
  | 0 => .halt "out of fuel"
  | fuel + 1 =>
    match (peekT toks cur).typ with
    | .False => .ok (.Literal (.Boolean false)) (advanceT toks cur)
    | .True => .ok (.Literal (.Boolean true)) (advanceT toks cur)
    | .Null => .ok (.Literal .Null) (advanceT toks cur)
    | .Number n => .ok (.Literal (.Number n)) (advanceT toks cur)
    | .String s => .ok (.Literal (.String s)) (advanceT toks cur)
    | .Soro => .ok Expr.Soro (advanceT toks cur)
    | .LeftParen =>
      let c1 := advanceT toks cur
      match pExpression toks c1 fuel with
      | .ok e c2 =>
        match consumeT toks c2 .RightParen "Expect ')' after expression." with
        | .ok _ c3 => .ok (.Grouping e) (advanceT toks (c3 - 1))
        | .err _ _ => .err (errorMsg (peekT toks c2).line "Expect expression.") c2
        | .halt m => .halt m
      | .err m c => .err m c
      | .halt m => .halt m
    | _ => .err (errorMsg (peekT toks cur).line "Expect expression.") cur

termination_by structural fuel => fuel

/-- Parser::statement (src/parser.rs lines 89-125): dispatch on the
current token; anything else is an expression statement. -/
def pStatement (toks : List Token) (cur : Nat) : Nat → PResult Stmt
  | 0 => .halt "out of fuel"
  | fuel + 1 =>
    match (peekT toks cur).typ with
    | .Print => pPrintStatement toks (advanceT toks cur) fuel
    | .LeftBrace =>
      match pBlockLoop toks [] (advanceT toks cur) fuel with
      | .ok ss c => .ok (.Block ss) c
      | .err m c => .err m c
      | .halt m => .halt m
    | .If => pIfStatement toks (advanceT toks cur) fuel
    | .While => pWhileStatement toks (advanceT toks cur) fuel
    | .Faran => pFaranStatement toks (advanceT toks cur) fuel
    | .Ke => pKeStatement toks (advanceT toks cur) fuel
    | _ => pExpressionStatement toks cur fuel

termination_by structural fuel => fuel

/-- Parser::while_statement (src/parser.rs lines 190-197): note the
source's `.expect` on the condition expression and on the body statement,
which panic on a recoverable error. -/
def pWhileStatement (toks : List Token) (cur : Nat) : Nat → PResult Stmt
  | 0 => .halt "out of fuel"
  | fuel + 1 =>
    match consumeT toks cur .LeftParen "Expect '(' after 'while'." with
    | .err m c => .err m c
    | .halt m => .halt m
    | .ok _ c1 =>
      match expectP (pExpression toks c1 fuel) "expression expected" with
      | .err m c => .err m c
      | .halt m => .halt m
      | .ok condition c2 =>
        match consumeT toks c2 .RightParen "Expect ')' after condition." with
        | .err m c => .err m c
        | .halt m => .halt m
        | .ok _ c3 =>
          match expectP (pStatement toks c3 fuel) "statement expected" with
          | .err m c => .err m c
          | .halt m => .halt m
          | .ok body c4 => .ok (.While condition body) c4

termination_by structural fuel => fuel

/-- Parser::if_statement (same `.expect` pattern as while_statement). -/
def pIfStatement (toks : List Token) (cur : Nat) : Nat → PResult Stmt
  | 0 => .halt "out of fuel"
  | fuel + 1 =>
    match consumeT toks cur .LeftParen "Expect '(' after 'if'." with
    | .err m c => .err m c
    | .halt m => .halt m
    | .ok _ c1 =>
      match expectP (pExpression toks c1 fuel) "expression expected" with
      | .err m c => .err m c
      | .halt m => .halt m
      | .ok condition c2 =>
        match consumeT toks c2 .RightParen "Expect ')' after condition." with
        | .err m c => .err m c
        | .halt m => .halt m
        | .ok _ c3 =>
          match expectP (pStatement toks c3 fuel) "statement expected" with
          | .err m c => .err m c
          | .halt m => .halt m
          | .ok thn c4 =>
            match (peekT toks c4).typ with
            | .Else =>
              let c5 := advanceT toks c4
              match expectP (pStatement toks c5 fuel) "statement expected" with
              | .err m c => .err m c
              | .halt m => .halt m
              | .ok els c6 => .ok (.If condition thn (some els)) c6
            | _ => .ok (.If condition thn none) c4

termination_by structural fuel => fuel

/-- Parser::print_statement: `.expect` on the value expression, then a
recoverable consume of the semicolon. -/
def pPrintStatement (toks : List Token) (cur : Nat) : Nat → PResult Stmt
  | 0 => .halt "out of fuel"
  | fuel + 1 =>
    match expectP (pExpression toks cur fuel) "expression expected" with
    | .err m c => .err m c
    | .halt m => .halt m
    | .ok value c1 =>
      match consumeT toks c1 .Semicolon "Expect ';' after value." with
      | .err m c => .err m c
      | .halt m => .halt m
      | .ok _ c2 => .ok (.Print value) c2


/-- Parser::faran_statement. -/
def pFaranStatement (toks : List Token) (cur : Nat) : Nat → PResult Stmt
  | 0 => .halt "out of fuel"
  | _ + 1 =>
    match consumeT toks cur .Semicolon "Expect ';' after value." with
    | .err m c => .err m c
    | .halt m => .halt m
    | .ok _ c1 => .ok .Faran c1


/-- Parser::ke_statement. -/
def pKeStatement (toks : List Token) (cur : Nat) : Nat → PResult Stmt
  | 0 => .halt "out of fuel"
  | _ + 1 =>
    match consumeT toks cur .Semicolon "Expect ';' after value." with
    | .err m c => .err m c
    | .halt m => .halt m
    | .ok _ c1 => .ok .Ke c1


/-- Parser::block (src/parser.rs lines 231-247): statements until `}` or
end of input, then consume the closing brace; a nested statement error
propagates out unrecovered. -/
def pBlockLoop (toks : List Token) (acc : List Stmt) (cur : Nat) :
    Nat → PResult (List Stmt)
  | 0 => .halt "out of fuel"
  | fuel + 1 =>
    if (peekT toks cur).typ ≠ .RightBrace ∧ isAtEndT toks cur = false then
      match pStatement toks cur fuel with
      | .ok s c => pBlockLoop toks (acc ++ [s]) c fuel
      | .err m c => .err m c
      | .halt m => .halt m
    else
      match consumeT toks cur .RightBrace "Expect '\x7d' after block." with
      | .ok _ c => .ok acc c
      | .err m c => .err m c
      | .halt m => .halt m

termination_by structural fuel => fuel

/-- Parser::expression_statement: `.expect` on the expression, then a
recoverable consume of the semicolon. -/
def pExpressionStatement (toks : List Token) (cur : Nat) : Nat → PResult Stmt
  | 0 => .halt "out of fuel"
  | fuel + 1 =>
    match expectP (pExpression toks cur fuel) "expression expected" with
    | .err m c => .err m c
    | .halt m => .halt m
    | .ok expr c1 =>
      match consumeT toks c1 .Semicolon "Expect ';' after value." with
      | .err m c => .err m c
      | .halt m => .halt m
      | .ok _ c2 => .ok (.Expression expr) c2


end

/-- The loop of Parser::parse (src/parser.rs lines 11-27): parse
statements to end of input; a recoverable statement error is recorded
(the source prints it) and skipped over by synchronise; a panic aborts
the whole parse, modelled by the Except error. -/
def pParseLoop (toks : List Token) :
    Nat → Nat → List Stmt → List String → Except String (List Stmt × List String)
  | 0, _, _, _ => .error "out of fuel"
  | fuel + 1, cur, acc, errs =>
    if isAtEndT toks cur then .ok (acc, errs)
    else
      match pStatement toks cur fuel with
      | .ok s c => pParseLoop toks fuel c (acc ++ [s]) errs
      | .err m c => pParseLoop toks fuel (pSynchronise toks c fuel) acc (errs ++ [m])
      | .halt m => .error m

/-- Fuel that bounds the whole parse: every unit of parser work either
descends one call level or consumes a token, and each token costs a
bounded number of levels. -/
def parserFuel (toks : List Token) : Nat := 16 * toks.length + 64

/-- Parser::parse over a token list, starting at cursor 0 as main.rs
builds the parser: the best-effort statement list and the reported parse
errors, or the message of the panic that aborted the process. -/
def parseTokens (toks : List Token) : Except String (List Stmt × List String) :=
  pParseLoop toks (parserFuel toks) 0 [] []

/-- Parser::expression run on its own from cursor 0, as the source's unit
tests drive the expression grammar. -/
def parseExpression (toks : List Token) : PResult Expr :=
  pExpression toks 0 (parserFuel toks)

/-! ## Interpreted-mode driver (src/main.rs, Sim branch) -/

/-- The top-level execution loop of main.rs's interpreted mode: execute
each parsed statement in the global scope, discarding completion values;
collect the printed lines. (The loop stands commented out in main.rs's
Sim branch; it is the spec's interpreted mode, section 6.) -/
def runStmts : List Stmt → EnvironmentArena → Nat → List String
  | [], _, _ => []
  | s :: rest, arena, env =>
    let (_, a1, out) := s.execute arena env
    out ++ runStmts rest a1 env

/-- Interpreted mode end to end, as main.rs's Sim branch sets it up: scan
from line 0, create the arena and the global scope (index 0), parse, then
execute every top-level statement in the global scope. Returns the lines
printed, or the message of the panic that aborted parsing. -/
def runSource (src : String) : Except String (List String) :=
  match parseTokens (scanSource src).1 with
  | .error m => .error m
  | .ok (stmts, _errs) =>
    .ok (runStmts stmts (EnvironmentArena.new.add none).2 0)

/-- Shape equality of expressions, as the source's parser tests define
`equal_expr` (src/parser.rs tests): literals by value, operators by token
type, recursing on subtrees; different variants are unequal. -/
def equalExpr : Expr → Expr → Bool
  | .Literal v1, .Literal v2 => decide (v1 = v2)
  | .Unary op1 r1, .Unary op2 r2 =>
    if op1.typ = op2.typ then equalExpr r1 r2 else false
  | .Grouping e1, .Grouping e2 => equalExpr e1 e2
  | .Binary l1 op1 r1, .Binary l2 op2 r2 =>
    if op1.typ = op2.typ then equalExpr l1 l2 && equalExpr r1 r2 else false
  | _, _ => false

/-! ## Statement helpers for the claims -/

/-- A token of the given kind with empty lexeme, for stating parse-shape
facts up to `equalExpr` (which ignores lexemes and lines). -/
def tok (t : TokenType) : Token := { lexeme := "", line := 0, typ := t }

/-- The expression grammar accepts `src` and produces a tree of the shape
of `e` (shape in the sense of the source's `equal_expr` test helper). -/
def parsesTo (src : String) (e : Expr) : Bool :=
  match parseExpression (scanSource src).1 with
  | .ok r _ => equalExpr r e
  | _ => false

/-- The print/parse round trip of claim C8 on one expression: print it in
parenthesized form, re-scan and re-parse the text, and compare shapes. -/
def reparsesSame (e : Expr) : Bool :=
  match parseExpression (scanSource e.fmt_output).1 with
  | .ok r _ => equalExpr r e
  | _ => false

/-- Specification-side `+` table (the amended claim C4): numeric sum for
two numbers, concatenation when both sides are strings or one is a string
and the other a number (the number stringified), null for every other
combination. Compared against Expr::evaluate. -/
def plusSpec : Value → Value → Value
  | .Number a, .Number b => .Number (a + b)
  | .String a, .String b => .String (a ++ b)
  | .String a, .Number b => .String (a ++ numToString b)
  | .Number a, .String b => .String (numToString a ++ b)
  | _, _ => .Null

/-- Specification-side truthiness (spec section 4.4: false, null, zero and
the empty string are falsy; every other value is truthy). Compared
against Expr::is_true. -/
def truthySpec (v : Value) : Bool :=
  decide (¬(v = .Boolean false ∨ v = .Null ∨ v = .Number 0 ∨ v = .String ""))

/-- Specification-side description of what the source's unary `!` returns
(the amended claim C5): true exactly on false and null. Compared against
Expr::evaluate on Bang. -/
def bangSpec (v : Value) : Bool :=
  decide (v = .Boolean false ∨ v = .Null)

/-- The name is unbound in the given scope and through its whole parent
chain up to the root, the chain being reachable within the given fuel
(the hypothesis of claim C6's failure cases). -/
def unboundThrough (A : EnvironmentArena) : Nat → Nat → String → Bool
  | 0, _, _ => false
  | fuel + 1, env, name =>
    match A.envs[env]? with
    | none => false
    | some e =>
      if (lookupVals e.values name).isSome then false
      else
        match e.parent with
        | some p => unboundThrough A fuel p name
        | none => true

/-- The nearest scope on the parent chain that binds the name, if the
chain reaches one within the given fuel (claim C6's success case). -/
def resolveScope (A : EnvironmentArena) : Nat → Nat → String → Option Nat
  | 0, _, _ => none
  | fuel + 1, env, name =>
    match A.envs[env]? with
    | none => none
    | some e =>
      if (lookupVals e.values name).isSome then some env
      else
        match e.parent with
        | some p => resolveScope A fuel p name
        | none => none

/-- Number of newline characters in a character list (the scanner's line
counter advance across a consumed region). -/
def newlineCount (cs : List Char) : Nat :=
  (cs.filter (fun c => decide (c = '\n'))).length

/-- Decidable equality for Except results, used to state concrete
pipeline outcomes. -/
instance {ε α : Type} [DecidableEq ε] [DecidableEq α] : DecidableEq (Except ε α) :=
  fun a b =>
    match a, b with
    | .ok x, .ok y => if h : x = y then .isTrue (by rw [h]) else .isFalse (by simp [h])
    | .error x, .error y => if h : x = y then .isTrue (by rw [h]) else .isFalse (by simp [h])
    | .ok _, .error _ => .isFalse (by simp)
    | .error _, .ok _ => .isFalse (by simp)

/-- A two-scope arena for concrete environment statements: the global
scope binds x, a child scope (parent 0) binds nothing. -/
def exampleArena : EnvironmentArena :=
  ⟨[{ index := 0, parent := none, values := [("x", Value.Number 1)] },
    { index := 1, parent := some 0, values := [] }]⟩

/-! ## Supporting lemmas -/

/-- Expr::is_true agrees with the spec's truthiness table on every literal
value. -/
theorem isTrue_literal (v : Value) (arena : EnvironmentArena) (env : Nat) :
    (Expr.Literal v).is_true arena env = (truthySpec v, arena) := by
  cases v with
  | String s =>
    show (!s.isEmpty, arena) = _
    have h : (!s.isEmpty) = truthySpec (.String s) := by
      by_cases hs : s = ""
      · simp [truthySpec, hs]
        rfl
      · have : s.isEmpty = false := by
          rw [Bool.eq_false_iff]
          intro hc
          exact hs ((String.isEmpty_iff s).mp hc)
        simp [truthySpec, hs, this]
    rw [h]
  | Number n =>
    show (decide (n ≠ 0), arena) = _
    have h : decide (n ≠ 0) = truthySpec (.Number n) := by
      simp [truthySpec]
    rw [h]
  | Boolean b => cases b <;> rfl
  | Null => rfl

/-- Evaluating a Bang on a literal yields the coarse two-value rule. -/
theorem bang_literal (v : Value) (arena : EnvironmentArena) (env : Nat) :
    ((Expr.Unary (tok .Bang) (.Literal v)).evaluate arena env).1 =
      .Boolean (bangSpec v) := by
  cases v with
  | Boolean b => cases b <;> rfl
  | Null => rfl
  | String s => rfl
  | Number n => rfl

/-- EnvironmentArena::get fails with the undefined-variable error on a
name unbound through the whole parent chain. -/
theorem get_unbound (A : EnvironmentArena) (name : Token) :
    ∀ (fuel env : Nat), unboundThrough A fuel env name.lexeme = true →
      A.get fuel env name = .error ("Undefined variable '" ++ name.lexeme ++ "'") := by
  intro fuel
  induction fuel with
  | zero => intro env hu; simp [unboundThrough] at hu
  | succ fuel ih =>
    intro env hu
    simp only [unboundThrough] at hu
    cases hgt : A.envs[env]? with
    | none => rw [hgt] at hu; simp at hu
    | some e =>
      rw [hgt] at hu
      simp only at hu
      by_cases hlk : (lookupVals e.values name.lexeme).isSome
      · rw [if_pos hlk] at hu; simp at hu
      · rw [if_neg hlk] at hu
        have hnone : lookupVals e.values name.lexeme = none :=
          Option.not_isSome_iff_eq_none.mp hlk
        cases hp : e.parent with
        | some p =>
          rw [hp] at hu
          simp [EnvironmentArena.get, hgt, hnone, hp, ih p hu]
        | none =>
          simp [EnvironmentArena.get, hgt, hnone, hp]

/-- EnvironmentArena::assign fails the same way on an unbound name and
returns the arena unchanged. -/
theorem assign_unbound (A : EnvironmentArena) (name : Token) (v : Value) :
    ∀ (fuel env : Nat), unboundThrough A fuel env name.lexeme = true →
      A.assign fuel env name v =
        (.error ("Undefined variable '" ++ name.lexeme ++ "'"), A) := by
  intro fuel
  induction fuel with
  | zero => intro env hu; simp [unboundThrough] at hu
  | succ fuel ih =>
    intro env hu
    simp only [unboundThrough] at hu
    cases hgt : A.envs[env]? with
    | none => rw [hgt] at hu; simp at hu
    | some e =>
      rw [hgt] at hu
      simp only at hu
      by_cases hlk : (lookupVals e.values name.lexeme).isSome
      · rw [if_pos hlk] at hu; simp at hu
      · rw [if_neg hlk] at hu
        cases hp : e.parent with
        | some p =>
          rw [hp] at hu
          simp [EnvironmentArena.assign, hgt, hlk, hp, ih p hu]
        | none =>
          simp [EnvironmentArena.assign, hgt, hlk, hp]

/-- EnvironmentArena::get returns the value of the nearest scope binding
the name on the parent chain. -/
theorem get_resolved (A : EnvironmentArena) (name : Token) :
    ∀ (fuel env j : Nat), resolveScope A fuel env name.lexeme = some j →
      ∃ e v, A.envs[j]? = some e ∧ lookupVals e.values name.lexeme = some v ∧
        A.get fuel env name = .ok v := by
  intro fuel
  induction fuel with
  | zero => intro env j hr; simp [resolveScope] at hr
  | succ fuel ih =>
    intro env j hr
    simp only [resolveScope] at hr
    cases hgt : A.envs[env]? with
    | none => rw [hgt] at hr; simp at hr
    | some e =>
      rw [hgt] at hr
      simp only at hr
      by_cases hlk : (lookupVals e.values name.lexeme).isSome
      · rw [if_pos hlk] at hr
        simp only [Option.some.injEq] at hr
        obtain ⟨v, hv⟩ := Option.isSome_iff_exists.mp hlk
        refine ⟨e, v, ?_, hv, ?_⟩
        · rw [← hr]; exact hgt
        · simp [EnvironmentArena.get, hgt, hv]
      · rw [if_neg hlk] at hr
        have hnone : lookupVals e.values name.lexeme = none :=
          Option.not_isSome_iff_eq_none.mp hlk
        cases hp : e.parent with
        | some p =>
          rw [hp] at hr
          obtain ⟨e2, v2, h1, h2, h3⟩ := ih p j hr
          exact ⟨e2, v2, h1, h2, by simp [EnvironmentArena.get, hgt, hnone, hp, h3]⟩
        | none => rw [hp] at hr; simp at hr

/-- EnvironmentArena::assign overwrites exactly the nearest scope binding
the name: the updated arena differs only at that scope. -/
theorem assign_resolved (A : EnvironmentArena) (name : Token) (w : Value) :
    ∀ (fuel env j : Nat), resolveScope A fuel env name.lexeme = some j →
      ∃ e, A.envs[j]? = some e ∧
        A.assign fuel env name w =
          (.ok (), ⟨A.envs.set j { e with values := insertVal e.values name.lexeme w }⟩) := by
  intro fuel
  induction fuel with
  | zero => intro env j hr; simp [resolveScope] at hr
  | succ fuel ih =>
    intro env j hr
    simp only [resolveScope] at hr
    cases hgt : A.envs[env]? with
    | none => rw [hgt] at hr; simp at hr
    | some e =>
      rw [hgt] at hr
      simp only at hr
      by_cases hlk : (lookupVals e.values name.lexeme).isSome
      · rw [if_pos hlk] at hr
        simp only [Option.some.injEq] at hr
        refine ⟨e, by rw [← hr]; exact hgt, ?_⟩
        subst hr
        simp [EnvironmentArena.assign, hgt, hlk]
      · rw [if_neg hlk] at hr
        cases hp : e.parent with
        | some p =>
          rw [hp] at hr
          obtain ⟨e2, h1, h2⟩ := ih p j hr
          exact ⟨e2, h1, by simp [EnvironmentArena.assign, hgt, hlk, hp, h2]⟩
        | none => rw [hp] at hr; simp at hr

/-- The character at an in-range index, through the scanner's peek. -/
theorem peekAt_lt (src : List Char) (i : Nat) (h : i < src.length) :
    peekAt src i = src[i] := by
  simp [peekAt, List.getD_eq_getElem?_getD, List.getElem?_eq_getElem h]

/-- Newline count across a cons cell. -/
theorem newlineCount_cons (c : Char) (l : List Char) :
    newlineCount (c :: l) = (if c = '\n' then 1 else 0) + newlineCount l := by
  by_cases h : c = '\n'
  · simp [newlineCount, List.filter, h]
    omega
  · simp [newlineCount, List.filter, h]

/-- The string-body loop of Scanner::string consumes the whole remaining
input when no closing quote exists, advancing the line counter once per
newline. -/
theorem stringLoop_no_quote :
    ∀ (fuel : Nat) (src : List Char) (cur line : Nat),
      '"' ∉ src.drop cur → cur ≤ src.length → src.length - cur < fuel →
      stringLoop src fuel cur line = (src.length, line + newlineCount (src.drop cur)) := by
  intro fuel
  induction fuel with
  | zero => intro src cur line _ _ hf; omega
  | succ fuel ih =>
    intro src cur line hq hle hf
    by_cases hcur : cur < src.length
    · have hdrop : src.drop cur = src[cur] :: src.drop (cur + 1) :=
        List.drop_eq_getElem_cons hcur
      have hpeek : peekAt src cur = src[cur] := peekAt_lt src cur hcur
      have hne : src[cur] ≠ '"' := fun hc =>
        hq (by rw [hdrop, hc]; exact List.mem_cons_self _ _)
      have hq2 : '"' ∉ src.drop (cur + 1) := fun hc =>
        hq (by rw [hdrop]; exact List.mem_cons_of_mem _ hc)
      have step : stringLoop src (fuel + 1) cur line =
          stringLoop src fuel (cur + 1) (if src[cur] = '\n' then line + 1 else line) := by
        simp only [stringLoop, hpeek]
        rw [if_pos hcur, if_neg hne]
      rw [step, ih src (cur + 1) _ hq2 (by omega) (by omega), hdrop, newlineCount_cons]
      by_cases hnl : src[cur] = '\n'
      · simp only [if_pos hnl, Prod.mk.injEq]
        exact ⟨trivial, by omega⟩
      · simp only [if_neg hnl, Prod.mk.injEq]
        exact ⟨trivial, by omega⟩
    · have hcl : cur = src.length := by omega
      have hnil : src.drop cur = [] := by rw [hcl]; exact List.drop_length src
      simp only [stringLoop]
      rw [if_neg hcur, hnil, hcl]
      simp [newlineCount]

/-- Scanner::scan_token on a quote with no closing quote: the whole input
is consumed, the line counter advances over the newlines, and neither a
token nor a report is produced (the source builds the error value and
discards it). -/
theorem scanStep_unterminated (s : List Char) (line : Nat) (h : '"' ∉ s) :
    scanStep ('"' :: s) 0 line =
      (('"' :: s).length, line + newlineCount s, none, none) := by
  have hq : '"' ∉ ('"' :: s).drop 1 := by simpa using h
  have hloop : stringLoop ('"' :: s) (s.length + 1 + 1) 1 line =
      (s.length + 1, line + newlineCount s) := by
    have := stringLoop_no_quote (s.length + 1 + 1) ('"' :: s) 1 line hq
      (by simp) (by simp; omega)
    simpa using this
  simp +decide [scanStep, peekAt, hloop]

/-! ## Claim theorems -/

/-- Claim C1 (code bug, evaluation at the failing input): the source's
While case of Stmt::execute has an unconditional `return` inside the
loop, so the evaluator runs the body of a while statement at most once
whatever the body is — a while with a constantly true condition executes
its body a single time and terminates, and the whole program
`while (true) \x7b print 1; \x7d` prints "1" once and finishes, where the
claim requires the body to repeat forever. -/
theorem C1_while_body_at_most_once :
    (∀ (body : Stmt) (arena : EnvironmentArena) (env : Nat),
      (Stmt.While (Expr.Literal (Value.Boolean true)) body).execute arena env =
        body.execute arena env) ∧
    runSource "while (true) \x7b print 1; \x7d" = .ok ["1"] :=
  ⟨fun _ _ _ => rfl, by with_unfolding_all rfl⟩

/-- Claim C2 (code bug, evaluation at the failing inputs): a parse error
inside a required expression does not go through the report-and-
synchronise recovery: the source's `.expect("expression expected")` calls
panic, aborting the whole process — here the statement `print ;` and the
while header `while (;) ...` both end the parse with the panic message
instead of a best-effort statement list. -/
theorem C2_expression_error_aborts_parse :
    runSource "print ;" = .error "expression expected" ∧
    runSource "while (;) print 1;" = .error "expression expected" :=
  ⟨by with_unfolding_all rfl, by with_unfolding_all rfl⟩

/-- Claim C3, counterexample: the compiled expression grammar has no
logical-or level (Parser::expression goes straight to equality; the
assignment, logical and call levels are commented out). Parsing `1 or 2`
as an expression stops after the literal 1 with the `or` token
unconsumed, and the statement `1 or 2;` is rejected with a parse error
and contributes no statement, where the claimed precedence ladder would
accept both. -/
theorem C3_counterexample_or_rejected :
    parseExpression (scanSource "1 or 2").1 = .ok (Expr.Literal (Value.Number 1)) 1 ∧
    parseTokens (scanSource "1 or 2;").1 =
      .ok ([], [errorMsg 0 "Expect ';' after value."]) :=
  ⟨by with_unfolding_all rfl, by with_unfolding_all rfl⟩

/-- Claim C3 as amended: the precedence ladder the source compiles is
equality > comparison > additive > multiplicative > unary > primary
(expression delegating directly to equality; no assignment, logical or
call levels), every binary level left-associative and unary
right-associative, and `print 1 + 2 * 3;` prints 7. -/
theorem C3_precedence_ladder_amended :
    runSource "print 1 + 2 * 3;" = .ok ["7"] ∧
    parsesTo "1 + 2 * 3"
      (.Binary (.Literal (.Number 1)) (tok .Plus)
        (.Binary (.Literal (.Number 2)) (tok .Star) (.Literal (.Number 3)))) = true ∧
    parsesTo "1 - 2 - 3"
      (.Binary (.Binary (.Literal (.Number 1)) (tok .Minus) (.Literal (.Number 2)))
        (tok .Minus) (.Literal (.Number 3))) = true ∧
    parsesTo "1 * 2 / 3"
      (.Binary (.Binary (.Literal (.Number 1)) (tok .Star) (.Literal (.Number 2)))
        (tok .Slash) (.Literal (.Number 3))) = true ∧
    parsesTo "1 < 2 < 3"
      (.Binary (.Binary (.Literal (.Number 1)) (tok .Less) (.Literal (.Number 2)))
        (tok .Less) (.Literal (.Number 3))) = true ∧
    parsesTo "1 == 2 != 3"
      (.Binary (.Binary (.Literal (.Number 1)) (tok .EqualEqual) (.Literal (.Number 2)))
        (tok .BangEqual) (.Literal (.Number 3))) = true ∧
    parsesTo "- - 1"
      (.Unary (tok .Minus) (.Unary (tok .Minus) (.Literal (.Number 1)))) = true ∧
    parsesTo "! true == false"
      (.Binary (.Unary (tok .Bang) (.Literal (.Boolean true))) (tok .EqualEqual)
        (.Literal (.Boolean false))) = true ∧
    parsesTo "(1 + 2) * 3"
      (.Binary (.Grouping (.Binary (.Literal (.Number 1)) (tok .Plus) (.Literal (.Number 2))))
        (tok .Star) (.Literal (.Number 3))) = true ∧
    parsesTo "1 == 2 < 3 + 4 * 5"
      (.Binary (.Literal (.Number 1)) (tok .EqualEqual)
        (.Binary (.Literal (.Number 2)) (tok .Less)
          (.Binary (.Literal (.Number 3)) (tok .Plus)
            (.Binary (.Literal (.Number 4)) (tok .Star) (.Literal (.Number 5)))))) = true :=
  ⟨by with_unfolding_all rfl, by with_unfolding_all rfl, by with_unfolding_all rfl,
   by with_unfolding_all rfl, by with_unfolding_all rfl, by with_unfolding_all rfl,
   by with_unfolding_all rfl, by with_unfolding_all rfl, by with_unfolding_all rfl,
   by with_unfolding_all rfl⟩

/-- Claim C4, counterexample: `"a" + true` evaluates to null, not to the
concatenation "atrue" — so concatenation does not happen "whenever either
side is a string": a string with a boolean (or null) falls into the
null-producing catch-all. -/
theorem C4_counterexample_string_plus_boolean :
    ((Expr.Binary (.Literal (.String "a")) (tok .Plus)
        (.Literal (.Boolean true))).evaluate EnvironmentArena.new 0).1 = Value.Null ∧
    Value.Null ≠ Value.String "atrue" :=
  ⟨rfl, by decide⟩

/-- Claim C4 as amended: `+` yields the numeric sum for two numbers,
concatenation when both sides are strings or one side is a string and the
other a number (the number stringified), and null for every other
combination of operand kinds — never a runtime error — and
`print "a" + 1;` prints "a1". -/
theorem C4_plus_table_amended :
    (∀ (l r : Value) (arena : EnvironmentArena) (env : Nat),
      ((Expr.Binary (.Literal l) (tok .Plus) (.Literal r)).evaluate arena env).1 =
        plusSpec l r) ∧
    runSource "print \"a\" + 1;" = .ok ["a1"] :=
  ⟨fun l r arena env => by cases l <;> cases r <;> rfl, by with_unfolding_all rfl⟩

/-- Claim C5, counterexample: the number 0 is falsy under the truthiness
rule Expr::is_true applies for if/while, yet `!0` evaluates to Boolean
false, not true — the Bang case of Expr::evaluate uses a different rule
under which every number is truthy. -/
theorem C5_counterexample_bang_zero :
    ((Expr.Unary (tok .Bang) (.Literal (.Number 0))).evaluate
        EnvironmentArena.new 0).1 = Value.Boolean false ∧
    (Expr.Literal (Value.Number 0)).is_true EnvironmentArena.new 0 =
      (false, EnvironmentArena.new) :=
  ⟨by with_unfolding_all rfl, by with_unfolding_all rfl⟩

/-- Claim C5 as amended: if and while conditions go through is_true,
whose rule makes false, null, zero and the empty string falsy and
everything else truthy; but the unary `!` operator uses a coarser rule,
returning true exactly on false and null — so `!0` and `!""` are false
although 0 and "" are falsy in conditions. -/
theorem C5_truthiness_amended :
    (∀ (v : Value) (arena : EnvironmentArena) (env : Nat),
      (Expr.Literal v).is_true arena env = (truthySpec v, arena)) ∧
    (∀ (v : Value) (arena : EnvironmentArena) (env : Nat),
      ((Expr.Unary (tok .Bang) (.Literal v)).evaluate arena env).1 =
        .Boolean (bangSpec v)) ∧
    (∀ (v : Value) (thn els : Stmt) (arena : EnvironmentArena) (env : Nat),
      (Stmt.If (.Literal v) thn (some els)).execute arena env =
        if truthySpec v then thn.execute arena env else els.execute arena env) ∧
    (∀ (v : Value) (body : Stmt) (arena : EnvironmentArena) (env : Nat),
      (Stmt.While (.Literal v) body).execute arena env =
        if truthySpec v then body.execute arena env else (none, arena, [])) := by
  refine ⟨isTrue_literal, bang_literal, ?_, ?_⟩
  · intro v thn els arena env
    show (let (b, a1) := (Expr.Literal v).is_true arena env
          if b then thn.execute a1 env
          else
            match some els with
            | some s => s.execute a1 env
            | none => (none, a1, [])) = _
    rw [isTrue_literal]
  · intro v body arena env
    show (let (b, a1) := (Expr.Literal v).is_true arena env
          if b then body.execute a1 env else (none, a1, [])) = _
    rw [isTrue_literal]

/-- Claim C6 (confirmed): get and assign search the given scope and then
its parent chain. On a name unbound all the way through the root, get
fails with the "undefined variable" error naming the identifier, and
assign fails identically while leaving the arena — every environment's
bindings — unchanged. On a name whose nearest binding sits in scope j,
get returns that binding's value and a successful assign produces an
arena that differs from the original only in scope j, where the binding
is overwritten. -/
theorem C6_get_assign_parent_chain (A : EnvironmentArena) (fuel env j : Nat)
    (missing bound : Token) (v w : Value)
    (hm : unboundThrough A fuel env missing.lexeme = true)
    (hb : resolveScope A fuel env bound.lexeme = some j) :
    A.get fuel env missing =
      .error ("Undefined variable '" ++ missing.lexeme ++ "'") ∧
    A.assign fuel env missing v =
      (.error ("Undefined variable '" ++ missing.lexeme ++ "'"), A) ∧
    (∃ e val, A.envs[j]? = some e ∧ lookupVals e.values bound.lexeme = some val ∧
      A.get fuel env bound = .ok val) ∧
    (∃ e, A.envs[j]? = some e ∧
      A.assign fuel env bound w =
        (.ok (), ⟨A.envs.set j { e with values := insertVal e.values bound.lexeme w }⟩)) :=
  ⟨get_unbound A missing fuel env hm,
   assign_unbound A missing v fuel env hm,
   get_resolved A bound fuel env j hb,
   assign_resolved A bound w fuel env j hb⟩

/-- Witness for claim C6 on a concrete two-scope arena: y is unbound
through the chain from the child scope, x resolves to the root scope. -/
theorem C6_get_assign_parent_chain_witness :
    unboundThrough exampleArena 2 1 "y" = true ∧
    resolveScope exampleArena 2 1 "x" = some 0 ∧
    (exampleArena.get 2 1 { lexeme := "y", line := 0, typ := .Identifier } =
        .error ("Undefined variable '" ++ "y" ++ "'") ∧
      exampleArena.assign 2 1 { lexeme := "y", line := 0, typ := .Identifier } .Null =
        (.error ("Undefined variable '" ++ "y" ++ "'"), exampleArena) ∧
      (∃ e val, exampleArena.envs[(0 : Nat)]? = some e ∧
        lookupVals e.values "x" = some val ∧
        exampleArena.get 2 1 { lexeme := "x", line := 0, typ := .Identifier } = .ok val) ∧
      (∃ e, exampleArena.envs[(0 : Nat)]? = some e ∧
        exampleArena.assign 2 1 { lexeme := "x", line := 0, typ := .Identifier }
            (.Number 2) =
          (.ok (), ⟨exampleArena.envs.set 0
            { e with values := insertVal e.values "x" (.Number 2) }⟩))) :=
  ⟨by with_unfolding_all rfl, by with_unfolding_all rfl,
   C6_get_assign_parent_chain exampleArena 2 1 0
     { lexeme := "y", line := 0, typ := .Identifier }
     { lexeme := "x", line := 0, typ := .Identifier } .Null (.Number 2)
     (by with_unfolding_all rfl) (by with_unfolding_all rfl)⟩

/-- Claim C7, counterexample: an unterminated string is NOT reported —
Scanner::string builds the error value and discards it — so scanning
`"ab` produces no report at all (and the EOF token still terminates the
output); on the multi-line `"a<newline>b` the scanner's line counter
stands at 1 at end of input while the opening quote is on line 0, so even
the discarded error value carries the end line, not the line of the
opening quote. -/
theorem C7_counterexample_no_report :
    scanSource "\"ab" = ([{ lexeme := "", line := 0, typ := .EOF }], []) ∧
    scanSource "\"a\nb" = ([{ lexeme := "", line := 1, typ := .EOF }], []) :=
  ⟨by with_unfolding_all rfl, by with_unfolding_all rfl⟩

/-- Claim C7 as amended: for any source consisting of a quote followed by
text with no closing quote, the scanner consumes everything, constructs
and silently discards the unterminated-string error (no report), emits no
token for the string, counts the newlines inside it into the line
counter, and the output is exactly the terminal end-of-input token. -/
theorem C7_unterminated_string_amended (s : List Char) (h : '"' ∉ s) :
    scanTokens ('"' :: s) =
      ([{ lexeme := "", line := newlineCount s, typ := .EOF }], []) := by
  have hstep := scanStep_unterminated s 0 h
  show scanLoop ('"' :: s) (('"' :: s).length + 1) 0 0 [] [] = _
  have hlen : ('"' :: s).length = s.length + 1 := by simp
  rw [hlen]
  simp only [scanLoop]
  rw [if_pos (show (0 : Nat) < ('"' :: s).length by simp)]
  rw [hstep]
  simp only [scanLoop, hlen]
  rw [if_neg (show ¬(s.length + 1 < s.length + 1) by omega)]
  simp

/-- Witness for claim C7 at the concrete body a-newline-b: no quote in
the body, and scanning yields only the EOF token at line 1 with no
report. -/
theorem C7_unterminated_string_amended_witness :
    '"' ∉ ['a', '\n', 'b'] ∧
    scanTokens ('"' :: ['a', '\n', 'b']) =
      ([{ lexeme := "", line := newlineCount ['a', '\n', 'b'], typ := .EOF }], []) :=
  ⟨by decide, C7_unterminated_string_amended ['a', '\n', 'b'] (by decide)⟩

/-- Claim C8, counterexample: the parser accepts `(true)` as a grouping,
whose parenthesized printing is "(group true)" — but re-parsing that text
fails with "Expect expression." (the word group scans as an identifier,
which this parser cannot parse), so the print/parse round trip does not
hold for every accepted expression. -/
theorem C8_counterexample_group_print :
    parseExpression (scanSource "(true)").1 =
      .ok (Expr.Grouping (Expr.Literal (Value.Boolean true))) 3 ∧
    (Expr.Grouping (Expr.Literal (Value.Boolean true))).fmt_output = "(group true)" ∧
    parseExpression (scanSource "(group true)").1 =
      .err (errorMsg 0 "Expect expression.") 1 :=
  ⟨by with_unfolding_all rfl, by with_unfolding_all rfl, by with_unfolding_all rfl⟩

/-- Claim C8 as amended: the print/parse round trip holds only for
number, boolean and null literal atoms; a string literal prints without
quotes and a soro prints as a bare identifier, both unparseable, and
every compound expression prints in prefix form, which the parser either
rejects (operator after the opening parenthesis, group keyword) or
re-reads as a different shape (a printed unary minus gains a grouping
node). -/
theorem C8_roundtrip_amended :
    reparsesSame (.Literal (.Number 7)) = true ∧
    reparsesSame (.Literal (.Boolean true)) = true ∧
    reparsesSame (.Literal (.Boolean false)) = true ∧
    reparsesSame (.Literal .Null) = true ∧
    reparsesSame (.Literal (.String "a")) = false ∧
    reparsesSame (.Binary (.Literal (.Number 1))
      { lexeme := "+", line := 0, typ := .Plus } (.Literal (.Number 2))) = false ∧
    reparsesSame (.Unary { lexeme := "-", line := 0, typ := .Minus }
      (.Literal (.Number 1))) = false ∧
    reparsesSame (.Grouping (.Literal (.Boolean true))) = false ∧
    reparsesSame Expr.Soro = false :=
  ⟨by with_unfolding_all rfl, by with_unfolding_all rfl, by with_unfolding_all rfl,
   by with_unfolding_all rfl, by with_unfolding_all rfl, by with_unfolding_all rfl,
   by with_unfolding_all rfl, by with_unfolding_all rfl, by with_unfolding_all rfl⟩

/-- Claim C9 (confirmed): compiling `print 1 + 2;` parses to the expected
print statement and emits exactly: push 1, push 2, pop both operands (pop
rbx, pop rax), add, push the sum, then pop that value into rdx and call
printf — and in general the Plus case emits the operands' code followed
by the fixed pop-pop-add-push sequence, and every realized binary
operator's snippet pops its two operands and pushes exactly one
result. -/
theorem C9_compile_print_one_plus_two :
    parseTokens (scanSource "print 1 + 2;").1 =
      .ok ([Stmt.Print (Expr.Binary (.Literal (.Number 1))
        { lexeme := "+", line := 0, typ := .Plus } (.Literal (.Number 2)))], []) ∧
    ((Stmt.Print (Expr.Binary (.Literal (.Number 1))
        { lexeme := "+", line := 0, typ := .Plus } (.Literal (.Number 2)))).compile []).1 =
      "   ; print (+ 1 2)\n   ; 1\n   push 1\n   ; 2\n   push 2\n   ; (+ 1 2)\n   pop rbx\n   pop rax\n   add eax, ebx\n   push rax\n   lea rcx, [msg]\n   pop rdx\n   call printf\n" ∧
    (∀ (l r : Expr) (lex : String) (line : Nat),
      (Expr.Binary l { lexeme := lex, line := line, typ := .Plus } r).compile =
        l.compile ++ r.compile ++ "   ; " ++
          (Expr.Binary l { lexeme := lex, line := line, typ := .Plus } r).fmt_output ++
          "\n" ++ "   pop rbx\n   pop rax\n   add eax, ebx\n   push rax\n") ∧
    (([.Plus, .Star, .Minus, .Slash, .Less, .LessEqual, .Greater, .GreaterEqual,
        .EqualEqual, .BangEqual] : List TokenType).all
      (fun t => (binCompileSnippet t).startsWith "   pop rbx\n   pop rax\n" &&
                (binCompileSnippet t).endsWith "   push rax\n")) = true := by
  refine ⟨by with_unfolding_all rfl, by with_unfolding_all rfl,
    fun _ _ _ _ => rfl, ?_⟩
  set_option maxRecDepth 8192 in with_unfolding_all rfl

/-- Claim C10 (confirmed): evaluating any expression — Literal, Grouping,
Unary, Binary or Soro — returns the environment arena unchanged: no scope
is added and no binding is defined, assigned or removed by expression
evaluation. -/
theorem C10_evaluate_pure :
    ∀ (e : Expr) (arena : EnvironmentArena) (env : Nat),
      (e.evaluate arena env).2 = arena := by
  intro e
  induction e with
  | Binary l op r ihl ihr =>
    intro arena env
    simp only [Expr.evaluate]
    rcases hl : l.evaluate arena env with ⟨lv, a1⟩
    rcases hr : r.evaluate a1 env with ⟨rv, a2⟩
    have h1 : a1 = arena := by have := ihl arena env; rw [hl] at this; exact this
    have h2 : a2 = a1 := by have := ihr a1 env; rw [hr] at this; exact this
    simp [h1, h2]
  | Grouping e ih => intro arena env; exact ih arena env
  | Literal v => intro arena env; rfl
  | Unary op r ih =>
    intro arena env
    simp only [Expr.evaluate]
    rcases hr : r.evaluate arena env with ⟨rv, a1⟩
    have h1 : a1 = arena := by have := ih arena env; rw [hr] at this; exact this
    simp [h1]
  | Soro => intro arena env; rfl

end Ceya
